import Mathlib

/-
Verification development for the BLOOD-BRIDGE blood bank application.
The compatibility engine (ai_engine.py) and the request lifecycle
operations (app.py) are embedded shallowly: Python dictionaries become
structures or association lists, in-place mutation becomes explicit
state passing, nondeterministic inputs (generated ids, clock readings)
become parameters, and the flash-plus-redirect error paths become an
Option Error paired with the (unchanged) store.
-/

namespace BloodBridge

/-- Canonicalization the engine applies to blood-group strings: the
Python idiom str(x).strip().upper(), modelled on the character list of
the string (whitespace stripped from both ends, then every character
uppercased). -/
def canon (s : String) : String :=
  String.mk ((((s.data.dropWhile Char.isWhitespace).reverse.dropWhile
    Char.isWhitespace).reverse).map Char.toUpper)

/-- The fixed compatibility table BLOOD_COMPATIBILITY_RULES of
ai_engine.py: requested blood group mapped to the list of donor blood
groups allowed to supply it, in the order of the source dictionary. -/
def BLOOD_COMPATIBILITY_RULES : List (String × List String) :=
  [("O+", ["O+", "O-"]),
   ("O-", ["O-"]),
   ("A+", ["A+", "A-", "O+", "O-"]),
   ("A-", ["A-", "O-"]),
   ("B+", ["B+", "B-", "O+", "O-"]),
   ("B-", ["B-", "O-"]),
   ("AB+", ["A+", "A-", "B+", "B-", "O+", "O-", "AB+", "AB-"]),
   ("AB-", ["A-", "B-", "O-", "AB-"])]

/-- Dictionary lookup in the rules table. -/
def lookupRules (g : String) : Option (List String) :=
  BLOOD_COMPATIBILITY_RULES.lookup g

/-- get_compatible_blood_groups of ai_engine.py: canonicalize, then
return the table entry, or the empty list when the key is absent. -/
def get_compatible_blood_groups (requested_blood_group : String) : List String :=
  match lookupRules (canon requested_blood_group) with
  | some compatible_donors => compatible_donors
  | none => []

/-- is_compatible of ai_engine.py: membership of the canonicalized
donor group in the compatible list for the requested group. -/
def is_compatible (donor_blood_group requested_blood_group : String) : Bool :=
  (get_compatible_blood_groups requested_blood_group).contains (canon donor_blood_group)

/-- A donor record as consumed by filter_compatible_donors: a Python
dict that may lack the blood_group key, modelled with an Option. -/
structure Candidate where
  email : String
  name : String
  blood_group : Option String
deriving DecidableEq

/-- The expression donor.get x7b blood_group x7d with default empty
string: a missing key reads as the empty string. -/
def candidateBG (d : Candidate) : String := d.blood_group.getD ""

/-- filter_compatible_donors of ai_engine.py: early return of the
empty list when the compatibility set is empty, otherwise the list
comprehension keeping candidates whose canonicalized blood group is in
the compatible set. -/
def filter_compatible_donors (requested_blood_group : String)
    (available_donors : List Candidate) : List Candidate :=
  let compatible_blood_groups := get_compatible_blood_groups requested_blood_group
  if compatible_blood_groups.isEmpty then []
  else available_donors.filter
    (fun donor => compatible_blood_groups.contains (canon (candidateBG donor)))

/-- get_all_valid_blood_groups of ai_engine.py: the key list of the
rules dictionary, in insertion order. -/
def get_all_valid_blood_groups : List String :=
  BLOOD_COMPATIBILITY_RULES.map Prod.fst

/-- Python str applied to an optional string: None prints as None. -/
def pyStr : Option String → String
  | none => "None"
  | some s => s

/-- The typed error signals of the lifecycle routes in app.py; each
corresponds to one flash-and-redirect branch. -/
inductive Error
  | RoleMismatch
  | NotFound
  | InvalidState
  | IncompatibleBloodGroup
  | NotOwner
  | ValidationError
deriving DecidableEq

/-- A user record of the users dictionary in app.py (the fields the
lifecycle operations read). blood_group is None for requestors. -/
structure User where
  email : String
  name : String
  blood_group : Option String
  role : String
deriving DecidableEq

/-- A blood request record as built by create_request in app.py.
accepted_at and confirmed_at are absent keys until the corresponding
transition stamps them. -/
structure BloodRequest where
  id : String
  blood_group : String
  units : Int
  requestor_email : String
  requestor_name : String
  donor_email : Option String
  donor_name : Option String
  status : String
  timestamp : String
  accepted_at : Option String
  confirmed_at : Option String
  compatibility_info : List String
deriving DecidableEq

/-- A donation history entry as built by record_donation in app.py. -/
structure DonationRecord where
  request_id : String
  blood_group : String
  requestor_email : String
  date_time : String
deriving DecidableEq

/-- The mutable module-level state of app.py that the lifecycle
operations touch: requests_list and donation_history (a dict from
donor email to a list of donation records, as an association list with
unique keys). -/
structure Store where
  requests_list : List BloodRequest
  donation_history : List (String × List DonationRecord)
deriving DecidableEq

/-- The loop in donate_blood and confirm_request that scans
requests_list for the first request with the given id. -/
def findRequest (l : List BloodRequest) (request_id : String) : Option BloodRequest :=
  l.find? (fun req => req.id == request_id)

/-- In-place mutation of the found request object: the first list
entry whose id matches is replaced by its update. -/
def updateFirst (l : List BloodRequest) (request_id : String)
    (f : BloodRequest → BloodRequest) : List BloodRequest :=
  match l with
  | [] => []
  | r :: rest =>
    if r.id == request_id then f r :: rest else r :: updateFirst rest request_id f

/-- The statement donation_history[donor_email].append(record): the
entry at the key (unique in a dict) gets the record appended. -/
def appendAt (hist : List (String × List DonationRecord)) (donor_email : String)
    (rec : DonationRecord) : List (String × List DonationRecord) :=
  match hist with
  | [] => []
  | (k, v) :: rest =>
    if k == donor_email then (k, v ++ [rec]) :: rest
    else (k, v) :: appendAt rest donor_email rec

/-- The guard in record_donation that inserts an empty list for a
donor email not yet present in donation_history. -/
def ensureKey (hist : List (String × List DonationRecord)) (donor_email : String) :
    List (String × List DonationRecord) :=
  if (hist.lookup donor_email).isSome then hist else hist ++ [(donor_email, [])]

/-- record_donation of app.py: ensure the donor has a history list,
then append one donation record to it. The clock reading is the now
parameter. -/
def record_donation (hist : List (String × List DonationRecord))
    (donor_email request_id blood_group requestor_email now : String) :
    List (String × List DonationRecord) :=
  appendAt (ensureKey hist donor_email) donor_email
    ⟨request_id, blood_group, requestor_email, now⟩

/-- The four field assignments the accept transition performs on the
found request object: donor reference, donor name snapshot, status
Accepted, acceptance time. -/
def acceptUpdate (current_user : User) (now : String) (r : BloodRequest) : BloodRequest :=
  { r with donor_email := some current_user.email,
           donor_name := some current_user.name,
           status := "Accepted",
           accepted_at := some now }

/-- The two field assignments the confirm transition performs on the
found request object: status Confirmed, confirmation time. -/
def confirmUpdate (now : String) (r : BloodRequest) : BloodRequest :=
  { r with status := "Confirmed", confirmed_at := some now }

/-- donate_blood of app.py (the POST path, with the logged-in user
passed explicitly): role check, request lookup, status check,
compatibility check, in source order; on success the request is
mutated and one donation is recorded. Errors pair the flash signal
with the untouched store. -/
def donate_blood (store : Store) (current_user : User) (request_id now : String) :
    Option Error × Store :=
  if current_user.role ≠ "Donor" then (some Error.RoleMismatch, store)
  else
    match findRequest store.requests_list request_id with
    | none => (some Error.NotFound, store)
    | some blood_request =>
      if blood_request.status ≠ "Requested" then (some Error.InvalidState, store)
      else if is_compatible (pyStr current_user.blood_group) blood_request.blood_group = false then
        (some Error.IncompatibleBloodGroup, store)
      else
        (none,
         { requests_list :=
             updateFirst store.requests_list request_id (acceptUpdate current_user now),
           donation_history := record_donation store.donation_history current_user.email
             request_id blood_request.blood_group blood_request.requestor_email now })

/-- create_request of app.py (the POST path): role check, blood-group
validation after canonicalization, units parse-and-positivity check
(a failed int parse is the none case), then append of the new request
with status Requested and no donor. The generated id and the clock
reading are parameters. -/
def create_request (store : Store) (current_user : User) (blood_group_raw : String)
    (units : Option Int) (request_id now : String) : Option Error × Store :=
  if current_user.role ≠ "Requestor" then (some Error.RoleMismatch, store)
  else
    let blood_group := canon blood_group_raw
    if blood_group ∉ get_all_valid_blood_groups then (some Error.ValidationError, store)
    else
      match units with
      | none => (some Error.ValidationError, store)
      | some u =>
        if u ≤ 0 then (some Error.ValidationError, store)
        else
          (none,
           { store with requests_list := store.requests_list ++
              [{ id := request_id,
                 blood_group := blood_group,
                 units := u,
                 requestor_email := current_user.email,
                 requestor_name := current_user.name,
                 donor_email := none,
                 donor_name := none,
                 status := "Requested",
                 timestamp := now,
                 accepted_at := none,
                 confirmed_at := none,
                 compatibility_info := get_compatible_blood_groups blood_group }] })

/-- confirm_request of app.py (the POST path): request lookup,
ownership check, status check, in source order; on success the request
status becomes Confirmed and the confirmation time is stamped. -/
def confirm_request (store : Store) (current_user : User) (request_id now : String) :
    Option Error × Store :=
  match findRequest store.requests_list request_id with
  | none => (some Error.NotFound, store)
  | some blood_request =>
    if blood_request.requestor_email ≠ current_user.email then (some Error.NotOwner, store)
    else if blood_request.status ≠ "Accepted" then (some Error.InvalidState, store)
    else
      (none,
       { store with requests_list :=
           updateFirst store.requests_list request_id (confirmUpdate now) })

/-- get_active_requests of app.py: the requests whose status is in
the list Requested, Confirmed. -/
def get_active_requests (store : Store) : List BloodRequest :=
  store.requests_list.filter (fun req => req.status == "Requested" || req.status == "Confirmed")

/-- The donation log of one donor as read through the dict:
donation_history.get(donor_email, []). -/
def histOf (hist : List (String × List DonationRecord)) (donor_email : String) :
    List DonationRecord :=
  (hist.lookup donor_email).getD []

/-- The stores reachable from the empty initial state by any sequence
of create, accept and confirm operations (each step keeps the store an
operation returns, whether or not the operation signalled an error). -/
inductive Reachable : Store → Prop
  | init : Reachable ⟨[], []⟩
  | create (s : Store) (u : User) (bg : String) (units : Option Int) (rid now : String) :
      Reachable s → Reachable (create_request s u bg units rid now).2
  | accept (s : Store) (u : User) (rid now : String) :
      Reachable s → Reachable (donate_blood s u rid now).2
  | confirm (s : Store) (u : User) (rid now : String) :
      Reachable s → Reachable (confirm_request s u rid now).2

/-- The empty initial store. -/
def store0 : Store := ⟨[], []⟩

/-- Sample requestor used by concrete witnesses. -/
def userRita : User := ⟨"rita@x.com", "Rita", none, "Requestor"⟩

/-- Sample donor with blood group B minus. -/
def donorDan : User := ⟨"dan@x.com", "Dan", some "B-", "Donor"⟩

/-- Sample donor with blood group A plus. -/
def donorDee : User := ⟨"dee@x.com", "Dee", some "A+", "Donor"⟩

/-- A request for AB minus blood already accepted by Dan. -/
def reqAccepted : BloodRequest :=
  { id := "req_1",
    blood_group := "AB-",
    units := 2,
    requestor_email := "rita@x.com",
    requestor_name := "Rita",
    donor_email := some "dan@x.com",
    donor_name := some "Dan",
    status := "Accepted",
    timestamp := "t0",
    accepted_at := some "t1",
    confirmed_at := none,
    compatibility_info := ["A-", "B-", "O-", "AB-"] }

/-- A store holding the accepted request and the matching donation
history of Dan. -/
def storeAccepted : Store :=
  ⟨[reqAccepted], [("dan@x.com", [⟨"req_1", "AB-", "rita@x.com", "t1"⟩])]⟩

/-- A freshly created request for AB minus blood, not yet accepted. -/
def reqRequested : BloodRequest :=
  { id := "req_1",
    blood_group := "AB-",
    units := 2,
    requestor_email := "rita@x.com",
    requestor_name := "Rita",
    donor_email := none,
    donor_name := none,
    status := "Requested",
    timestamp := "t0",
    accepted_at := none,
    confirmed_at := none,
    compatibility_info := ["A-", "B-", "O-", "AB-"] }

/-- A store holding only the open request. -/
def storeRequested : Store := ⟨[reqRequested], []⟩

/-- The store after Dan accepts the open request. -/
def storeAfterAccept : Store := (donate_blood storeRequested donorDan "req_1" "t1").2

/-- The store reached from the empty store by one create and one
accept operation. -/
def storeCreateAccept : Store :=
  (donate_blood (create_request store0 userRita "AB-" (some 2) "req_1" "t0").2
    donorDan "req_1" "t1").2

/-- The request record inside storeCreateAccept. -/
def reqCreateAccept : BloodRequest :=
  { id := "req_1",
    blood_group := "AB-",
    units := 2,
    requestor_email := "rita@x.com",
    requestor_name := "Rita",
    donor_email := some "dan@x.com",
    donor_name := some "Dan",
    status := "Accepted",
    timestamp := "t0",
    accepted_at := some "t1",
    confirmed_at := none,
    compatibility_info := ["A-", "B-", "O-", "AB-"] }

/-- Candidate donor dict with blood group A plus. -/
def candA : Candidate := ⟨"donor1@test.com", "John", some "A+"⟩

/-- Candidate donor dict with blood group AB plus. -/
def candAB : Candidate := ⟨"donor2@test.com", "Jane", some "AB+"⟩

/-- Candidate donor dict with blood group B plus. -/
def candB : Candidate := ⟨"donor3@test.com", "Bob", some "B+"⟩

/-- Candidate donor dict with blood group O minus. -/
def candO : Candidate := ⟨"donor4@test.com", "Olga", some "O-"⟩

/-- Candidate donor dict lacking the blood_group key. -/
def candNoBG : Candidate := ⟨"donor5@test.com", "Max", none⟩

end BloodBridge

namespace BloodBridge

/-
Helper lemmas about the list and association-list plumbing of the
embedding. They are shared by several of the claim theorems below.
-/

theorem findRequest_mem {l : List BloodRequest} {rid : String} {r : BloodRequest}
    (h : findRequest l rid = some r) : r ∈ l :=
  List.mem_of_find?_eq_some h

theorem mem_updateFirst {l : List BloodRequest} {rid : String} {f : BloodRequest → BloodRequest}
    {x : BloodRequest} (hx : x ∈ updateFirst l rid f) :
    x ∈ l ∨ ∃ r, findRequest l rid = some r ∧ x = f r := by
  induction l with
  | nil => simp [updateFirst] at hx
  | cons r rest ih =>
    simp only [updateFirst] at hx
    split at hx
    next h =>
      rcases List.mem_cons.mp hx with h1 | h1
      · exact Or.inr ⟨r, by simp [findRequest, h], h1⟩
      · exact Or.inl (List.mem_cons_of_mem _ h1)
    next h =>
      rcases List.mem_cons.mp hx with h1 | h1
      · exact Or.inl (h1 ▸ List.mem_cons_self _ _)
      · rcases ih h1 with h2 | ⟨r2, hr2, hx2⟩
        · exact Or.inl (List.mem_cons_of_mem _ h2)
        · refine Or.inr ⟨r2, ?_, hx2⟩
          rw [findRequest, List.find?_cons_of_neg _ (by simpa using h)]
          exact hr2

theorem findRequest_updateFirst {l : List BloodRequest} {rid : String}
    {f : BloodRequest → BloodRequest} (hf : ∀ r, (f r).id = r.id) :
    findRequest (updateFirst l rid f) rid = (findRequest l rid).map f := by
  induction l with
  | nil => simp [updateFirst, findRequest]
  | cons r rest ih =>
    simp only [updateFirst]
    split
    next h =>
      have h' : ((f r).id == rid) = true := by
        rw [hf r]; exact h
      simp [findRequest, h, h']
    next h =>
      simp only [findRequest] at ih ⊢
      rw [List.find?_cons_of_neg _ (by simpa using h),
          List.find?_cons_of_neg _ (by simpa using h)]
      exact ih

theorem lookup_appendAt_self (hist : List (String × List DonationRecord)) (e : String)
    (rec : DonationRecord) :
    (appendAt hist e rec).lookup e = (hist.lookup e).map (fun v => v ++ [rec]) := by
  induction hist with
  | nil => simp [appendAt]
  | cons p rest ih =>
    obtain ⟨k, v⟩ := p
    simp only [appendAt]
    split
    next h =>
      have hk : k = e := by simpa using h
      subst hk
      simp [List.lookup_cons]
    next h =>
      have hk : ¬ k = e := by simpa using h
      have he : (e == k) = false := by simp [Ne.symm hk]
      rw [List.lookup_cons, List.lookup_cons]
      simp [he, ih]

theorem lookup_appendAt_ne (hist : List (String × List DonationRecord)) (e e' : String)
    (rec : DonationRecord) (hne : e' ≠ e) :
    (appendAt hist e rec).lookup e' = hist.lookup e' := by
  induction hist with
  | nil => simp [appendAt]
  | cons p rest ih =>
    obtain ⟨k, v⟩ := p
    simp only [appendAt]
    split
    next h =>
      have hk : k = e := by simpa using h
      subst hk
      have he : (e' == k) = false := by simp [hne]
      rw [List.lookup_cons, List.lookup_cons]
      simp [he]
    next h =>
      rw [List.lookup_cons, List.lookup_cons]
      cases he : (e' == k) <;> simp [he, ih]

theorem lookup_ensureKey_self (hist : List (String × List DonationRecord)) (e : String) :
    (ensureKey hist e).lookup e = some (histOf hist e) := by
  unfold ensureKey histOf
  split
  next h =>
    obtain ⟨v, hv⟩ := Option.isSome_iff_exists.mp h
    simp [hv]
  next h =>
    have h2 : hist.lookup e = none := Option.not_isSome_iff_eq_none.mp h
    rw [List.lookup_append, h2]
    simp [h2]

theorem lookup_ensureKey_ne (hist : List (String × List DonationRecord)) (e e' : String)
    (hne : e' ≠ e) :
    (ensureKey hist e).lookup e' = hist.lookup e' := by
  unfold ensureKey
  split
  · rfl
  · rw [List.lookup_append]
    have he : (e' == e) = false := by simp [hne]
    have h1 : ([(e, [])] : List (String × List DonationRecord)).lookup e' = none := by
      rw [List.lookup_cons]
      simp [he]
    rw [h1, Option.or_none]

theorem histOf_record_donation_self (hist : List (String × List DonationRecord))
    (e rid bg re now : String) :
    histOf (record_donation hist e rid bg re now) e = histOf hist e ++ [⟨rid, bg, re, now⟩] := by
  unfold record_donation
  unfold histOf
  rw [lookup_appendAt_self, lookup_ensureKey_self]
  rfl

theorem histOf_record_donation_ne (hist : List (String × List DonationRecord))
    (e e' rid bg re now : String) (hne : e' ≠ e) :
    histOf (record_donation hist e rid bg re now) e' = histOf hist e' := by
  unfold record_donation
  unfold histOf
  rw [lookup_appendAt_ne _ _ _ _ hne, lookup_ensureKey_ne _ _ _ hne]

theorem donate_blood_ok {s : Store} {u : User} {rid now : String} {s' : Store}
    (h : donate_blood s u rid now = (none, s')) :
    u.role = "Donor" ∧
    ∃ r, findRequest s.requests_list rid = some r ∧ r.status = "Requested" ∧
      is_compatible (pyStr u.blood_group) r.blood_group = true ∧
      s' = { requests_list := updateFirst s.requests_list rid (acceptUpdate u now),
             donation_history := record_donation s.donation_history u.email rid
               r.blood_group r.requestor_email now } := by
  unfold donate_blood at h
  split at h
  next hrole => simp at h
  next hrole =>
    split at h
    next hfind => simp at h
    next r hfind =>
      split at h
      next hstat => simp at h
      next hstat =>
        split at h
        next hcompat => simp at h
        next hcompat =>
          injection h with h1 h2
          exact ⟨not_not.mp hrole, r, hfind, not_not.mp hstat,
                 by simpa using hcompat, h2.symm⟩

theorem confirm_request_ok {s : Store} {u : User} {rid now : String} {s' : Store}
    (h : confirm_request s u rid now = (none, s')) :
    ∃ r, findRequest s.requests_list rid = some r ∧ r.requestor_email = u.email ∧
      r.status = "Accepted" ∧
      s' = { s with requests_list := updateFirst s.requests_list rid (confirmUpdate now) } := by
  unfold confirm_request at h
  split at h
  next hfind => simp at h
  next r hfind =>
    split at h
    next hown => simp at h
    next hown =>
      split at h
      next hstat => simp at h
      next hstat =>
        injection h with h1 h2
        exact ⟨r, hfind, not_not.mp hown, not_not.mp hstat, h2.symm⟩

theorem lookupRules_eq_none {g : String} (hg : g ∉ get_all_valid_blood_groups) :
    lookupRules g = none := by
  simp only [get_all_valid_blood_groups, BLOOD_COMPATIBILITY_RULES, List.map,
    List.mem_cons, List.not_mem_nil, or_false, not_or] at hg
  obtain ⟨h1, h2, h3, h4, h5, h6, h7, h8⟩ := hg
  have e1 : (g == "O+") = false := beq_eq_false_iff_ne.mpr h1
  have e2 : (g == "O-") = false := beq_eq_false_iff_ne.mpr h2
  have e3 : (g == "A+") = false := beq_eq_false_iff_ne.mpr h3
  have e4 : (g == "A-") = false := beq_eq_false_iff_ne.mpr h4
  have e5 : (g == "B+") = false := beq_eq_false_iff_ne.mpr h5
  have e6 : (g == "B-") = false := beq_eq_false_iff_ne.mpr h6
  have e7 : (g == "AB+") = false := beq_eq_false_iff_ne.mpr h7
  have e8 : (g == "AB-") = false := beq_eq_false_iff_ne.mpr h8
  simp [lookupRules, BLOOD_COMPATIBILITY_RULES, List.lookup_cons,
    e1, e2, e3, e4, e5, e6, e7, e8]

theorem gcbg_eq_nil {x : String} (hx : canon x ∉ get_all_valid_blood_groups) :
    get_compatible_blood_groups x = [] := by
  unfold get_compatible_blood_groups
  rw [lookupRules_eq_none hx]

theorem mem_values_of_lookup {l : List (String × List String)} {k : String} {v : List String}
    (h : l.lookup k = some v) : v ∈ l.map Prod.snd := by
  obtain ⟨l₁, l₂, rfl, -⟩ := List.lookup_eq_some_iff.mp h
  simp

theorem empty_not_mem_gcbg (requested : String) :
    "" ∉ get_compatible_blood_groups requested := by
  unfold get_compatible_blood_groups
  cases hl : lookupRules (canon requested) with
  | none => simp
  | some l =>
    have hv : l ∈ BLOOD_COMPATIBILITY_RULES.map Prod.snd :=
      mem_values_of_lookup hl
    have hall : ∀ v ∈ BLOOD_COMPATIBILITY_RULES.map Prod.snd, "" ∉ v := by decide
    exact hall l hv

theorem filter_compatible_donors_eq_filter (requested : String) (ds : List Candidate) :
    filter_compatible_donors requested ds =
      ds.filter (fun d =>
        (get_compatible_blood_groups requested).contains (canon (candidateBG d))) := by
  simp only [filter_compatible_donors]
  split
  next h =>
    have h0 : get_compatible_blood_groups requested = [] := by
      simpa using h
    rw [h0]
    simp
  next h => rfl

end BloodBridge

namespace BloodBridge

/-- C1 counterexample: with an empty request collection (so no request
with the given id exists) and a caller whose role is Requestor,
donate_blood answers RoleMismatch, not the NotFound that the claimed
check order (existence before role) would require. -/
theorem C1_counterexample :
    findRequest store0.requests_list "req_1" = none ∧
    donate_blood store0 userRita "req_1" "t" = (some Error.RoleMismatch, store0) ∧
    Error.RoleMismatch ≠ Error.NotFound :=
  ⟨rfl, by decide, by decide⟩

/-- C1 (amended): donate_blood checks its preconditions in this order:
caller role is Donor (else RoleMismatch), request with the id exists
(else NotFound), status is exactly Requested (else InvalidState), and
last the compatibility of the donor blood group (else
IncompatibleBloodGroup); in particular an accept attempt on a request
already in status Accepted yields InvalidState for every donor,
compatible or not, never IncompatibleBloodGroup. -/
theorem C1_accept_precondition_order (s : Store) (u : User) (rid now : String) :
    (u.role ≠ "Donor" → donate_blood s u rid now = (some Error.RoleMismatch, s)) ∧
    (u.role = "Donor" → findRequest s.requests_list rid = none →
      donate_blood s u rid now = (some Error.NotFound, s)) ∧
    (∀ r, u.role = "Donor" → findRequest s.requests_list rid = some r →
      r.status ≠ "Requested" →
      donate_blood s u rid now = (some Error.InvalidState, s)) ∧
    (∀ r, u.role = "Donor" → findRequest s.requests_list rid = some r →
      r.status = "Requested" →
      is_compatible (pyStr u.blood_group) r.blood_group = false →
      donate_blood s u rid now = (some Error.IncompatibleBloodGroup, s)) ∧
    (∀ r, u.role = "Donor" → findRequest s.requests_list rid = some r →
      r.status = "Accepted" →
      donate_blood s u rid now = (some Error.InvalidState, s)) := by
  have hbase : ∀ r, u.role = "Donor" → findRequest s.requests_list rid = some r →
      r.status ≠ "Requested" →
      donate_blood s u rid now = (some Error.InvalidState, s) := by
    intro r h1 h2 h3
    unfold donate_blood
    rw [if_neg (not_not_intro h1), h2]
    dsimp only
    rw [if_pos h3]
  refine ⟨?_, ?_, hbase, ?_, ?_⟩
  · intro h
    unfold donate_blood
    rw [if_pos h]
  · intro h1 h2
    unfold donate_blood
    rw [if_neg (not_not_intro h1), h2]
  · intro r h1 h2 h3 h4
    unfold donate_blood
    rw [if_neg (not_not_intro h1), h2]
    dsimp only
    rw [if_neg (not_not_intro h3), if_pos h4]
  · intro r h1 h2 h3
    exact hbase r h1 h2 (by simp [h3])

/-- C1 witness: Dee (blood group A plus, incompatible with the AB
minus request) attempts to accept the already accepted request and
gets InvalidState, exercising the state-before-compatibility order. -/
theorem C1_witness :
    donate_blood storeAccepted donorDee "req_1" "t2" = (some Error.InvalidState, storeAccepted) :=
  (C1_accept_precondition_order storeAccepted donorDee "req_1" "t2").2.2.2.2
    reqAccepted (by decide) (by decide) (by decide)

/-- C2: a successful donate_blood found its request in status
Requested; afterwards that request carries the donor reference, the
donor name snapshot, status Accepted and the acceptance stamp, and
exactly one donation record is appended to the log of the accepting
donor (logs of all other donors unchanged); moreover create_request
and confirm_request never change donation_history, and a failed
donate_blood does not change it either, so the accept transition is
the only creator of donation records among the lifecycle operations. -/
theorem C2_accept_success_effects :
    (∀ s u rid now s', donate_blood s u rid now = (none, s') →
      ∃ r, findRequest s.requests_list rid = some r ∧ r.status = "Requested" ∧
        findRequest s'.requests_list rid =
          some { r with donor_email := some u.email, donor_name := some u.name,
                        status := "Accepted", accepted_at := some now } ∧
        histOf s'.donation_history u.email =
          histOf s.donation_history u.email ++ [⟨rid, r.blood_group, r.requestor_email, now⟩] ∧
        (∀ e, e ≠ u.email →
          histOf s'.donation_history e = histOf s.donation_history e)) ∧
    (∀ s u bg units rid now,
      ((create_request s u bg units rid now).2).donation_history = s.donation_history) ∧
    (∀ s u rid now,
      ((confirm_request s u rid now).2).donation_history = s.donation_history) ∧
    (∀ s u rid now e, (donate_blood s u rid now).1 = some e →
      ((donate_blood s u rid now).2).donation_history = s.donation_history) := by
  refine ⟨?_, ?_, ?_, ?_⟩
  · intro s u rid now s' h
    obtain ⟨hrole, r, hfind, hstat, hcompat, rfl⟩ := donate_blood_ok h
    refine ⟨r, hfind, hstat, ?_, ?_, ?_⟩
    · rw [@findRequest_updateFirst s.requests_list rid (acceptUpdate u now) (fun q => rfl),
        hfind]
      rfl
    · exact histOf_record_donation_self _ _ _ _ _ _
    · intro e he
      exact histOf_record_donation_ne _ _ _ _ _ _ _ he
  · intro s u bg units rid now
    simp only [create_request]
    split
    · rfl
    · split
      · rfl
      · split
        · rfl
        · split
          · rfl
          · rfl
  · intro s u rid now
    simp only [confirm_request]
    split
    · rfl
    · split
      · rfl
      · split
        · rfl
        · rfl
  · intro s u rid now e h
    revert h
    simp only [donate_blood]
    split
    · intro _; rfl
    · split
      · intro _; rfl
      · split
        · intro _; rfl
        · split
          · intro _; rfl
          · intro h; simp at h

/-- C2 witness: Dan accepts the open AB minus request; the request is
found in status Requested and the concrete after-store shows the
updated request and the one appended donation record. -/
theorem C2_witness :
    ∃ r, findRequest storeRequested.requests_list "req_1" = some r ∧
      r.status = "Requested" ∧
      findRequest storeAfterAccept.requests_list "req_1" =
        some { r with donor_email := some donorDan.email, donor_name := some donorDan.name,
                      status := "Accepted", accepted_at := some "t1" } ∧
      histOf storeAfterAccept.donation_history donorDan.email =
        histOf storeRequested.donation_history donorDan.email ++
          [⟨"req_1", r.blood_group, r.requestor_email, "t1"⟩] ∧
      (∀ e, e ≠ donorDan.email →
        histOf storeAfterAccept.donation_history e =
          histOf storeRequested.donation_history e) :=
  C2_accept_success_effects.1 storeRequested donorDan "req_1" "t1" storeAfterAccept (by decide)

end BloodBridge

namespace BloodBridge

/-- C3: every one of the 8 blood groups is in its own compatibility
list and contains O minus; the AB plus list is the full 8-element set
of blood groups (both inclusions, 8 distinct entries); the O minus
list is exactly the singleton O minus. -/
theorem C3_table_invariants :
    (∀ g ∈ get_all_valid_blood_groups,
      g ∈ get_compatible_blood_groups g ∧ "O-" ∈ get_compatible_blood_groups g) ∧
    (∀ g ∈ get_all_valid_blood_groups, g ∈ get_compatible_blood_groups "AB+") ∧
    (∀ g ∈ get_compatible_blood_groups "AB+", g ∈ get_all_valid_blood_groups) ∧
    (get_compatible_blood_groups "AB+").length = 8 ∧
    (get_compatible_blood_groups "AB+").Nodup ∧
    get_all_valid_blood_groups.length = 8 ∧
    get_compatible_blood_groups "O-" = ["O-"] := by
  decide

/-- C3 witness: the invariants instantiated at the concrete group A
plus. -/
theorem C3_witness :
    ("A+" ∈ get_compatible_blood_groups "A+" ∧ "O-" ∈ get_compatible_blood_groups "A+") ∧
    "A+" ∈ get_compatible_blood_groups "AB+" :=
  ⟨C3_table_invariants.1 "A+" (by decide), C3_table_invariants.2.1 "A+" (by decide)⟩

/-- C4: whenever donate_blood or confirm_request signals any error,
the operation returns the whole store unchanged: no request field is
modified and no donation record is appended. -/
theorem C4_error_no_mutation :
    (∀ s u rid now e, (donate_blood s u rid now).1 = some e →
      (donate_blood s u rid now).2 = s) ∧
    (∀ s u rid now e, (confirm_request s u rid now).1 = some e →
      (confirm_request s u rid now).2 = s) := by
  constructor
  · intro s u rid now e
    simp only [donate_blood]
    split
    · intro _; rfl
    · split
      · intro _; rfl
      · split
        · intro _; rfl
        · split
          · intro _; rfl
          · intro h; simp at h
  · intro s u rid now e
    simp only [confirm_request]
    split
    · intro _; rfl
    · split
      · intro _; rfl
      · split
        · intro _; rfl
        · intro h; simp at h

/-- C4 witness: a RoleMismatch accept attempt and a NotFound confirm
attempt on the empty store both leave the store untouched. -/
theorem C4_witness :
    (donate_blood store0 userRita "req_1" "t").2 = store0 ∧
    (confirm_request store0 userRita "req_1" "t").2 = store0 :=
  ⟨C4_error_no_mutation.1 store0 userRita "req_1" "t" Error.RoleMismatch (by decide),
   C4_error_no_mutation.2 store0 userRita "req_1" "t" Error.NotFound (by decide)⟩

/-- C5: confirm_request checks its preconditions in the order:
request with the id exists (else NotFound), the caller is the original
requestor (else NotOwner), status is exactly Accepted (else
InvalidState); on success it transitions the request to Confirmed and
stamps the confirmation time, with no compatibility condition anywhere
(the success branch holds for arbitrary blood groups). -/
theorem C5_confirm_precondition_order (s : Store) (u : User) (rid now : String) :
    (findRequest s.requests_list rid = none →
      confirm_request s u rid now = (some Error.NotFound, s)) ∧
    (∀ r, findRequest s.requests_list rid = some r → r.requestor_email ≠ u.email →
      confirm_request s u rid now = (some Error.NotOwner, s)) ∧
    (∀ r, findRequest s.requests_list rid = some r → r.requestor_email = u.email →
      r.status ≠ "Accepted" →
      confirm_request s u rid now = (some Error.InvalidState, s)) ∧
    (∀ r, findRequest s.requests_list rid = some r → r.requestor_email = u.email →
      r.status = "Accepted" →
      confirm_request s u rid now =
        (none, { s with requests_list := updateFirst s.requests_list rid (confirmUpdate now) }) ∧
      findRequest ((confirm_request s u rid now).2).requests_list rid =
        some { r with status := "Confirmed", confirmed_at := some now }) := by
  refine ⟨?_, ?_, ?_, ?_⟩
  · intro h
    unfold confirm_request
    rw [h]
  · intro r h1 h2
    unfold confirm_request
    rw [h1]
    dsimp only
    rw [if_pos h2]
  · intro r h1 h2 h3
    unfold confirm_request
    rw [h1]
    dsimp only
    rw [if_neg (not_not_intro h2), if_pos h3]
  · intro r h1 h2 h3
    have hres : confirm_request s u rid now =
        (none, { s with requests_list := updateFirst s.requests_list rid (confirmUpdate now) }) := by
      unfold confirm_request
      rw [h1]
      dsimp only
      rw [if_neg (not_not_intro h2), if_neg (not_not_intro h3)]
    refine ⟨hres, ?_⟩
    rw [hres]
    dsimp only
    rw [@findRequest_updateFirst s.requests_list rid (confirmUpdate now) (fun q => rfl), h1]
    rfl

/-- C5 witness: Rita confirms her accepted request; the result is a
success and the stored request reads Confirmed with the stamp. -/
theorem C5_witness :
    confirm_request storeAccepted userRita "req_1" "t2" =
      (none, { storeAccepted with
        requests_list := updateFirst storeAccepted.requests_list "req_1" (confirmUpdate "t2") }) ∧
    findRequest ((confirm_request storeAccepted userRita "req_1" "t2").2).requests_list "req_1" =
      some { reqAccepted with status := "Confirmed", confirmed_at := some "t2" } :=
  (C5_confirm_precondition_order storeAccepted userRita "req_1" "t2").2.2.2
    reqAccepted (by decide) (by decide) (by decide)

/-- C6: the engine canonicalizes its input, so the lower-case a+ query
equals the upper-case A+ query; any input whose canonical form is not
one of the 8 recognized groups yields the empty list (the total
functions never fail), hence is_compatible is false and
filter_compatible_donors is empty for such a requested group. -/
theorem C6_canonicalization_and_unrecognized :
    get_compatible_blood_groups "a+" = get_compatible_blood_groups "A+" ∧
    (∀ x, canon x ∉ get_all_valid_blood_groups → get_compatible_blood_groups x = []) ∧
    (∀ x d, canon x ∉ get_all_valid_blood_groups → is_compatible d x = false) ∧
    (∀ x ds, canon x ∉ get_all_valid_blood_groups → filter_compatible_donors x ds = []) := by
  refine ⟨by decide, fun x hx => gcbg_eq_nil hx, ?_, ?_⟩
  · intro x d hx
    unfold is_compatible
    rw [gcbg_eq_nil hx]
    rfl
  · intro x ds hx
    rw [filter_compatible_donors_eq_filter, gcbg_eq_nil hx]
    simp

/-- C6 witness: the unrecognized group X plus yields the empty list,
a false compatibility test and an empty filtered donor list. -/
theorem C6_witness :
    get_compatible_blood_groups "X+" = [] ∧
    is_compatible "A+" "X+" = false ∧
    filter_compatible_donors "X+" [candA] = [] :=
  ⟨C6_canonicalization_and_unrecognized.2.1 "X+" (by decide),
   C6_canonicalization_and_unrecognized.2.2.1 "X+" "A+" (by decide),
   C6_canonicalization_and_unrecognized.2.2.2 "X+" [candA] (by decide)⟩

/-- C7: filter_compatible_donors is exactly the order-preserving
filter of the candidate list by membership of the canonicalized blood
group in the compatibility list (hence a subsequence of its input),
and on the concrete A plus example it keeps exactly the A plus and O
minus candidates in input order. -/
theorem C7_filter_subsequence :
    (∀ requested ds, filter_compatible_donors requested ds =
      ds.filter (fun d =>
        (get_compatible_blood_groups requested).contains (canon (candidateBG d)))) ∧
    (∀ requested ds, (filter_compatible_donors requested ds).Sublist ds) ∧
    filter_compatible_donors "A+" [candA, candAB, candB, candO] = [candA, candO] := by
  refine ⟨filter_compatible_donors_eq_filter, ?_, by decide⟩
  intro requested ds
  rw [filter_compatible_donors_eq_filter]
  exact List.filter_sublist ds

/-- C8: the active-requests view lists exactly the requests whose
status is Requested or Confirmed, as an order-preserving subsequence
of the request collection, and every Accepted request is absent from
it. -/
theorem C8_active_requests_view (s : Store) :
    (get_active_requests s).Sublist s.requests_list ∧
    (∀ r, r ∈ get_active_requests s ↔
      r ∈ s.requests_list ∧ (r.status = "Requested" ∨ r.status = "Confirmed")) ∧
    (∀ r, r ∈ s.requests_list → r.status = "Accepted" → r ∉ get_active_requests s) := by
  have hiff : ∀ r, r ∈ get_active_requests s ↔
      r ∈ s.requests_list ∧ (r.status = "Requested" ∨ r.status = "Confirmed") := by
    intro r
    unfold get_active_requests
    rw [List.mem_filter]
    simp
  refine ⟨List.filter_sublist _, hiff, ?_⟩
  intro r hr hacc hmem
  have h2 := ((hiff r).mp hmem).2
  rw [hacc] at h2
  rcases h2 with h | h <;> exact absurd h (by decide)

/-- C8 witness: the accepted request of the sample store is absent
from the active view. -/
theorem C8_witness : reqAccepted ∉ get_active_requests storeAccepted :=
  (C8_active_requests_view storeAccepted).2.2 reqAccepted (by decide) (by decide)

/-- C10: a candidate dict lacking the blood_group key is read as the
empty string, which belongs to no compatibility list, so the candidate
is silently excluded from every filter_compatible_donors result (the
function is total and raises nothing). -/
theorem C10_missing_blood_group_excluded (requested : String) (ds : List Candidate)
    (d : Candidate) (hd : d.blood_group = none) :
    d ∉ filter_compatible_donors requested ds := by
  rw [filter_compatible_donors_eq_filter]
  intro hmem
  have hc := (List.mem_filter.mp hmem).2
  have hbg : canon (candidateBG d) = "" := by
    unfold candidateBG
    rw [hd]
    decide
  rw [hbg] at hc
  have hmem2 : "" ∈ get_compatible_blood_groups requested := by
    simpa using hc
  exact empty_not_mem_gcbg requested hmem2

/-- C10 witness: the keyless candidate is excluded even for the
universal-recipient request AB plus whose compatibility list holds all
8 groups. -/
theorem C10_witness : candNoBG ∉ filter_compatible_donors "AB+" [candNoBG] :=
  C10_missing_blood_group_excluded "AB+" [candNoBG] candNoBG rfl

end BloodBridge

namespace BloodBridge

/-- C9: in every store reachable by any sequence of create, accept and
confirm operations, a request carries no donor reference exactly when
its status is Requested: creation initializes status Requested with no
donor, acceptance installs the donor reference exactly when it sets
status Accepted, and confirmation moves Accepted to Confirmed without
clearing the donor reference. -/
theorem C9_donor_email_iff_status_requested {s : Store} (hs : Reachable s) :
    ∀ r ∈ s.requests_list, (r.donor_email = none ↔ r.status = "Requested") := by
  induction hs with
  | init => intro r hr; simp at hr
  | create s u bg units rid now hs ih =>
    intro r
    simp only [create_request]
    split
    next => exact ih r
    next =>
      split
      next => exact ih r
      next =>
        split
        next => exact ih r
        next u2 =>
          split
          next => exact ih r
          next =>
            intro hr
            rcases List.mem_append.mp hr with h | h
            · exact ih r h
            · have hr2 := List.mem_singleton.mp h
              subst hr2
              exact ⟨fun _ => rfl, fun _ => rfl⟩
  | accept s u rid now hs ih =>
    intro r
    simp only [donate_blood]
    split
    next => exact ih r
    next =>
      split
      next => exact ih r
      next br hfind =>
        split
        next => exact ih r
        next =>
          split
          next => exact ih r
          next =>
            intro hr
            rcases mem_updateFirst hr with h | ⟨r2, hr2, rfl⟩
            · exact ih r h
            · have h1 : (acceptUpdate u now r2).donor_email = some u.email := rfl
              have h2 : (acceptUpdate u now r2).status = "Accepted" := rfl
              rw [h1, h2]
              exact ⟨fun h0 => Option.noConfusion h0, fun h0 => absurd h0 (by decide)⟩
  | confirm s u rid now hs ih =>
    intro r
    simp only [confirm_request]
    split
    next => exact ih r
    next br hfind =>
      split
      next => exact ih r
      next hown =>
        split
        next => exact ih r
        next hstat =>
          intro hr
          rcases mem_updateFirst hr with h | ⟨r2, hr2, rfl⟩
          · exact ih r h
          · rw [hfind] at hr2
            injection hr2 with hbr
            subst hbr
            have hiff := ih br (findRequest_mem hfind)
            have hstat2 : br.status = "Accepted" := not_not.mp hstat
            have hne : br.donor_email ≠ none := by
              intro h0
              have h3 := hiff.mp h0
              rw [hstat2] at h3
              exact absurd h3 (by decide)
            have h1 : (confirmUpdate now br).donor_email = br.donor_email := rfl
            have h2 : (confirmUpdate now br).status = "Confirmed" := rfl
            rw [h1, h2]
            exact ⟨fun h0 => absurd h0 hne, fun h0 => absurd h0 (by decide)⟩

/-- C9 witness: the invariant applied to the concrete store reached by
one create and one accept operation, at its single request. -/
theorem C9_witness :
    reqCreateAccept.donor_email = none ↔ reqCreateAccept.status = "Requested" :=
  C9_donor_email_iff_status_requested
    (Reachable.accept (create_request store0 userRita "AB-" (some 2) "req_1" "t0").2
      donorDan "req_1" "t1"
      (Reachable.create store0 userRita "AB-" (some 2) "req_1" "t0" Reachable.init))
    reqCreateAccept (by decide)

end BloodBridge
